import Mathlib

/-!
Shallow embedding of the core of `src/script.js` (smart-expense-tracker):
the `state` object (expenses list, current filter, localStorage glue) and
the free functions `getCategoryStats` and `generateUID`-driven replay.

Modelling conventions:
* JS numbers carrying expense amounts are modelled as `ℚ` (the spec demands
  decimal-safe accumulation; all claims use exact decimal values).
* `localStorage` is one slot for the key "expenses" plus a `broken` flag
  modelling a medium that rejects writes (quota exceeded / unavailable),
  which `saveToStorage` catches.
* The serialized text is modelled at the JSON-value level: `StoredText.json j`
  stands for text that `JSON.parse` accepts and parses to the JSON value `j`;
  `StoredText.notJson` stands for text `JSON.parse` throws on.  The engine's
  stringify/parse text round-trip is external library behaviour; the code's
  own contribution — which object shape it writes and how it consumes the
  parsed value through the fields `id`/`amount`/`category`/`timestamp` — is
  modelled by `encodeExpenses`/`decodeExpenseList`.
-/

namespace ExpenseTracker

/-- One expense record, as built by `handleAddExpense` in `src/script.js`:
`{ id, amount, category, timestamp }`.  No field is constrained by type:
the code nowhere validates amounts or categories. -/
structure Expense where
  id : String
  amount : ℚ
  category : String
  timestamp : String
deriving DecidableEq, Repr

/-- JSON values, the abstract form of the serialized text handled by
`JSON.stringify` / `JSON.parse`. -/
inductive Json where
  | null : Json
  | bool (b : Bool) : Json
  | num (q : ℚ) : Json
  | str (s : String) : Json
  | arr (items : List Json) : Json
  | obj (fields : List (String × Json)) : Json

/-- The text stored in the localStorage slot, seen through `JSON.parse`:
either text that parses to a JSON value, or text that makes `JSON.parse`
throw (corruption). -/
inductive StoredText where
  | json (j : Json) : StoredText
  | notJson : StoredText

/-- The storage medium: the single slot for key "expenses" (`none` = never
written), and whether the medium currently rejects writes
(`localStorage.setItem` throwing, e.g. quota exceeded). -/
structure Storage where
  slot : Option StoredText
  broken : Bool

/-- The `state` object of `src/script.js` together with the storage medium
it reads and writes. -/
structure AppState where
  expenses : List Expense
  currentFilter : String
  storage : Storage

/-- The recognized category set, as enumerated by the source's
`categoryEmojis` / `categoryClasses` tables. -/
def recognizedCategories : List String :=
  ["Food", "Travel", "Shopping", "Bills", "Others"]

/-- Models `JSON.stringify` on one expense object: an object with the four fields
`handleAddExpense` puts there. -/
def encodeExpense (e : Expense) : Json :=
  .obj [("id", .str e.id), ("amount", .num e.amount),
        ("category", .str e.category), ("timestamp", .str e.timestamp)]

/-- Models `JSON.stringify(this.expenses)`: the array of encoded expense objects. -/
def encodeExpenses (es : List Expense) : Json :=
  .arr (es.map encodeExpense)

/-- Reading one parsed element through the four property accesses the code
performs (`expense.id`, `expense.amount`, `expense.category`,
`expense.timestamp`).  No value validation happens: any amount (also ≤ 0),
any category string and any id pass through. -/
def decodeExpense (j : Json) : Option Expense :=
  match j with
  | .obj fields =>
      match fields.lookup "id", fields.lookup "amount",
            fields.lookup "category", fields.lookup "timestamp" with
      | some (.str i), some (.num a), some (.str c), some (.str t) =>
          some { id := i, amount := a, category := c, timestamp := t }
      | _, _, _, _ => none
  | _ => none

/-- Element-wise reading of a parsed array. -/
def decodeItems : List Json → Option (List Expense)
  | [] => some []
  | j :: rest =>
      match decodeExpense j, decodeItems rest with
      | some e, some es => some (e :: es)
      | _, _ => none

/-- The parsed storage value, consumed as a list of expenses. -/
def decodeExpenseList : Json → Option (List Expense)
  | .arr items => decodeItems items
  | _ => none

/-- Models `localStorage.setItem('expenses', v)`: throws when the medium rejects
the write, otherwise replaces the slot. -/
def Storage.setItem (st : Storage) (v : StoredText) : Except Unit Storage :=
  if st.broken then .error () else .ok { st with slot := some v }

/-- Models `JSON.parse` on the stored text: throws on corrupt text. -/
def jsonParse : StoredText → Except Unit Json
  | .json j => .ok j
  | .notJson => .error ()

/-- Source `state.saveToStorage`: `try { localStorage.setItem('expenses',
JSON.stringify(this.expenses)) } catch { console.error(...) }` — a failed
write is logged and swallowed, leaving the state untouched. -/
def saveToStorage (s : AppState) : AppState :=
  match s.storage.setItem (.json (encodeExpenses s.expenses)) with
  | .ok st => { s with storage := st }
  | .error _ => s

/-- Source `state.loadFromStorage`: returns `[]` when the slot was never written
(`stored` falsy), returns `[]` when `JSON.parse` throws (the catch branch),
and otherwise returns the parsed value verbatim — the code applies no
validation to it.  A stored JSON value that is not an array of
expense-shaped objects is outside the behaviour the claims exercise; the
model maps it to `[]` via `Option.getD`. -/
def loadFromStorage (s : AppState) : List Expense :=
  match s.storage.slot with
  | none => []
  | some t =>
      match jsonParse t with
      | .error _ => []
      | .ok j => (decodeExpenseList j).getD []

/-- Source `state.init()`: `this.expenses = this.loadFromStorage()`. -/
def state_init (s : AppState) : AppState :=
  { s with expenses := loadFromStorage s }

/-- Source `state.addExpense(expense)`: `this.expenses.push(expense);
this.saveToStorage();` — an unconditional append followed by a persist;
no validation, no failure path. -/
def addExpense (s : AppState) (e : Expense) : AppState :=
  saveToStorage { s with expenses := s.expenses ++ [e] }

/-- Source `state.removeExpense(id)`: `this.expenses = this.expenses.filter(e =>
e.id !== id); this.saveToStorage();`. -/
def removeExpense (s : AppState) (id : String) : AppState :=
  saveToStorage { s with expenses := s.expenses.filter (fun e => e.id != id) }

/-- Source `state.setFilter(category)`: `this.currentFilter = category;` — nothing
else: no validation and no persistence. -/
def setFilter (s : AppState) (category : String) : AppState :=
  { s with currentFilter := category }

/-- Source `state.getFilteredExpenses()`. -/
def getFilteredExpenses (s : AppState) : List Expense :=
  if s.currentFilter = "All" then s.expenses
  else s.expenses.filter (fun e => e.category == s.currentFilter)

/-- Source `state.getTotal()`: `reduce((sum, e) => sum + e.amount, 0)` over the
filtered expenses. -/
def getTotal (s : AppState) : ℚ :=
  (getFilteredExpenses s).foldl (fun sum e => sum + e.amount) 0

/-- The per-category record built by `getCategoryStats`. -/
structure CatStat where
  count : ℕ
  total : ℚ
deriving DecidableEq, Repr

/-- The body of the `forEach` callback in `getCategoryStats`: initialise the
cell for an unseen category to `{count: 0, total: 0}` and then increment
count and total (the initialisation plus increment is fused into one
update). -/
def statsStep (stats : String → Option CatStat) (e : Expense) :
    String → Option CatStat :=
  fun c =>
    if c = e.category then
      match stats e.category with
      | none => some { count := 1, total := e.amount }
      | some st => some { count := st.count + 1, total := st.total + e.amount }
    else stats c

/-- Source `getCategoryStats()`: a `forEach` over `state.expenses` (all of
them — the filter is never consulted) building a string-keyed map; the
modelled map is the function from category string to the optional stats
record. -/
def getCategoryStats (s : AppState) : String → Option CatStat :=
  s.expenses.foldl statsStep (fun _ => none)

/-- One user-level ledger mutation: `handleAddExpense` (which builds the
expense and calls `state.addExpense`) or `handleDeleteExpense` (which calls
`state.removeExpense`).  The expense carried by `add` already contains the
id produced by `generateUID()`. -/
inductive Op where
  | add (e : Expense) : Op
  | remove (id : String) : Op

/-- Applying one operation to the state. -/
def applyOp (s : AppState) : Op → AppState
  | .add e => addExpense s e
  | .remove id => removeExpense s id

/-- Replaying a sequence of operations. -/
def replay (ops : List Op) (s : AppState) : AppState :=
  ops.foldl applyOp s

/-- The startup state: empty expenses, filter "All" (the literals in the
`state` object), a never-written working storage slot. -/
def emptyState : AppState :=
  { expenses := [], currentFilter := "All",
    storage := { slot := none, broken := false } }

/-- Whether the operation list contains a removal of the given id. -/
def removedIn (ops : List Op) (id : String) : Bool :=
  ops.any fun op =>
    match op with
    | .remove i => i == id
    | .add _ => false

/-- Stated from the claim's words, for comparison with `replay`: the added
expenses that are not subsequently removed, in insertion order. -/
def survivors : List Op → List Expense
  | [] => []
  | .add e :: rest =>
      (if removedIn rest e.id then [] else [e]) ++ survivors rest
  | .remove _ :: rest => survivors rest

/-- The expenses carried by the add operations, in order. -/
def addsOf (ops : List Op) : List Expense :=
  ops.filterMap fun op =>
    match op with
    | .add e => some e
    | .remove _ => none


/-! ### Supporting lemmas -/

/-- Persisting never changes the in-memory expenses. -/
lemma saveToStorage_expenses (s : AppState) :
    (saveToStorage s).expenses = s.expenses := by
  unfold saveToStorage Storage.setItem
  by_cases h : s.storage.broken <;> simp [h]

/-- Persisting never changes the current filter. -/
lemma saveToStorage_currentFilter (s : AppState) :
    (saveToStorage s).currentFilter = s.currentFilter := by
  unfold saveToStorage Storage.setItem
  by_cases h : s.storage.broken <;> simp [h]

/-- When the medium is working, persisting writes the encoded expenses into
the slot. -/
lemma saveToStorage_storage_ok (s : AppState) (h : s.storage.broken = false) :
    (saveToStorage s).storage
      = { slot := some (.json (encodeExpenses s.expenses)), broken := false } := by
  unfold saveToStorage Storage.setItem
  simp [h]

/-- When the medium rejects writes, persisting leaves the whole state
untouched. -/
lemma saveToStorage_broken (s : AppState) (h : s.storage.broken = true) :
    saveToStorage s = s := by
  unfold saveToStorage Storage.setItem
  simp [h]

/-- The source's left fold accumulating amounts computes the list sum. -/
lemma foldl_amount (l : List Expense) (a : ℚ) :
    l.foldl (fun sum e => sum + e.amount) a = a + (l.map Expense.amount).sum := by
  induction l generalizing a with
  | nil => simp
  | cons e rest ih => simp [List.foldl_cons, ih, add_assoc]

/-- Reading back one encoded expense object recovers it exactly. -/
lemma decodeExpense_encodeExpense (e : Expense) :
    decodeExpense (encodeExpense e) = some e := rfl

/-- Reading back the encoded array recovers every element. -/
lemma decodeItems_map_encode (es : List Expense) :
    decodeItems (es.map encodeExpense) = some es := by
  induction es with
  | nil => rfl
  | cons e rest ih => simp [decodeItems, decodeExpense_encodeExpense, ih]

/-- Serialization round-trip at the JSON level. -/
lemma decodeExpenseList_encodeExpenses (es : List Expense) :
    decodeExpenseList (encodeExpenses es) = some es := by
  simp [decodeExpenseList, encodeExpenses, decodeItems_map_encode]

/-- Unfolding `removedIn` over a leading add operation. -/
lemma removedIn_cons_add (e : Expense) (rest : List Op) (i : String) :
    removedIn (.add e :: rest) i = removedIn rest i := rfl

/-- Unfolding `removedIn` over a leading remove operation. -/
lemma removedIn_cons_remove (r : String) (rest : List Op) (i : String) :
    removedIn (.remove r :: rest) i = ((r == i) || removedIn rest i) := rfl

/-- Replay from any state: the result is the survivors of the start state's
expenses (those whose id is never removed) followed by the surviving adds. -/
lemma replay_expenses_general (ops : List Op) (s : AppState) :
    (replay ops s).expenses
      = s.expenses.filter (fun e => !removedIn ops e.id) ++ survivors ops := by
  induction ops generalizing s with
  | nil =>
      simp [replay, survivors, removedIn]
  | cons op rest ih =>
      cases op with
      | add e =>
          have hstep : replay (.add e :: rest) s = replay rest (addExpense s e) := rfl
          have hexp : (addExpense s e).expenses = s.expenses ++ [e] := by
            simp [addExpense, saveToStorage_expenses]
          rw [hstep, ih, hexp, List.filter_append]
          simp only [removedIn_cons_add, survivors]
          by_cases hrem : removedIn rest e.id <;>
            simp [hrem, List.append_assoc]
      | remove i =>
          have hstep : replay (.remove i :: rest) s = replay rest (removeExpense s i) := rfl
          have hexp : (removeExpense s i).expenses
              = s.expenses.filter (fun e => e.id != i) := by
            simp [removeExpense, saveToStorage_expenses]
          rw [hstep, ih, hexp, List.filter_filter]
          congr 1
          apply List.filter_congr
          intro e _
          by_cases h : e.id = i
          · simp [removedIn_cons_remove, h, bne]
          · have h2 : ¬ i = e.id := fun hh => h hh.symm
            have hb1 : (e.id == i) = false := beq_eq_false_iff_ne.mpr h
            have hb2 : (i == e.id) = false := beq_eq_false_iff_ne.mpr h2
            simp [removedIn_cons_remove, bne, hb1, hb2]

/-- The survivors list is a sublist of the list of all added expenses. -/
lemma survivors_sublist_addsOf (ops : List Op) :
    (survivors ops).Sublist (addsOf ops) := by
  induction ops with
  | nil => simp [survivors, addsOf]
  | cons op rest ih =>
      cases op with
      | add e =>
          by_cases hrem : removedIn rest e.id
          · simpa [survivors, addsOf, hrem, List.filterMap_cons] using ih.cons e
          · simpa [survivors, addsOf, hrem, List.filterMap_cons] using ih.cons₂ e
      | remove i =>
          simpa [survivors, addsOf, List.filterMap_cons] using ih

/-! ### Per-category tallies (analysis helpers for `getCategoryStats`) -/

/-- Number of entries in the given category. -/
def countIn (es : List Expense) (c : String) : ℕ :=
  (es.filter (fun e => e.category == c)).length

/-- Sum of the amounts of the entries in the given category. -/
def sumIn (es : List Expense) (c : String) : ℚ :=
  ((es.filter (fun e => e.category == c)).map Expense.amount).sum

/-- Merging one accumulator cell with the tally contributed by a list
suffix. -/
def mergeStat : Option CatStat → ℕ → ℚ → Option CatStat
  | none, n, q => if n = 0 then none else some { count := n, total := q }
  | some st, n, q => some { count := st.count + n, total := st.total + q }

lemma mergeStat_zero (o : Option CatStat) : mergeStat o 0 0 = o := by
  cases o <;> simp [mergeStat]

/-- What the `forEach` fold computes at every key, for an arbitrary starting
accumulator. -/
lemma foldl_statsStep (es : List Expense) (acc : String → Option CatStat)
    (c : String) :
    (es.foldl statsStep acc) c = mergeStat (acc c) (countIn es c) (sumIn es c) := by
  induction es generalizing acc with
  | nil => simp [countIn, sumIn, mergeStat_zero]
  | cons e rest ih =>
      rw [List.foldl_cons, ih]
      by_cases hc : c = e.category
      · subst hc
        have hbc : (e.category == e.category) = true := by simp
        have hcount : countIn (e :: rest) e.category = countIn rest e.category + 1 := by
          simp [countIn, List.filter_cons, hbc]
        have hsum : sumIn (e :: rest) e.category
            = e.amount + sumIn rest e.category := by
          simp [sumIn, List.filter_cons, hbc]
        rw [hcount, hsum]
        have hstep : statsStep acc e e.category
            = match acc e.category with
              | none => some { count := 1, total := e.amount }
              | some st => some { count := st.count + 1, total := st.total + e.amount } := by
          simp [statsStep]
        rw [hstep]
        cases hacc : acc e.category with
        | none =>
            simp only [mergeStat, Nat.add_eq_zero, Nat.succ_ne_zero, and_false,
              if_false, Option.some.injEq, CatStat.mk.injEq]
            exact ⟨by omega, by ring_nf⟩
        | some st =>
            simp only [mergeStat, Option.some.injEq, CatStat.mk.injEq]
            exact ⟨by omega, by ring_nf⟩
      · have hbc : (e.category == c) = false := by
          exact beq_eq_false_iff_ne.mpr (fun hh => hc hh.symm)
        have hcount : countIn (e :: rest) c = countIn rest c := by
          simp [countIn, List.filter_cons, hbc]
        have hsum : sumIn (e :: rest) c = sumIn rest c := by
          simp [sumIn, List.filter_cons, hbc]
        have hstep : statsStep acc e c = acc c := by
          simp [statsStep, hc]
        rw [hcount, hsum, hstep]

/-! ### Concrete fixtures used by the witnesses -/

def workingStorage : Storage := { slot := none, broken := false }

def c1e1 : Expense := { id := "a", amount := 12, category := "Food", timestamp := "t1" }

def c1e2 : Expense := { id := "b", amount := 7, category := "Travel", timestamp := "t2" }

def c1e3 : Expense := { id := "c", amount := 3, category := "Bills", timestamp := "t3" }

def c1ops : List Op := [.add c1e1, .add c1e2, .remove "a", .add c1e3]

def c2bad : Expense := { id := "x1", amount := -5, category := "Bogus", timestamp := "t" }

def c3food : Expense := { id := "s1", amount := 50, category := "Food", timestamp := "t1" }

def c3travel : Expense := { id := "s2", amount := 30, category := "Travel", timestamp := "t2" }

def c4a : Expense := { id := "f1", amount := 10, category := "Food", timestamp := "t1" }

def c4b : Expense := { id := "f2", amount := 20, category := "Food", timestamp := "t2" }

def c4c : Expense := { id := "v1", amount := 5, category := "Travel", timestamp := "t3" }

def c5state : AppState :=
  { expenses := [{ id := "p", amount := 9, category := "Food", timestamp := "t" }],
    currentFilter := "All", storage := workingStorage }

def c6entry : Expense := { id := "q", amount := 42, category := "Bills", timestamp := "t9" }

def c8corrupt : AppState :=
  { expenses := [], currentFilter := "Food",
    storage := { slot := some .notJson, broken := false } }

def c9broken : AppState :=
  { expenses := [], currentFilter := "All",
    storage := { slot := none, broken := true } }

def c9e : Expense := { id := "n", amount := 4, category := "Others", timestamp := "t" }

def c10bad : List Expense :=
  [{ id := "d", amount := -5, category := "Bogus", timestamp := "t" },
   { id := "d", amount := 3, category := "Food", timestamp := "t" }]

def c10state : AppState :=
  { expenses := [], currentFilter := "All",
    storage := { slot := some (.json (encodeExpenses c10bad)), broken := false } }

/-! ### Claim theorems -/

/-- **C1**: for every finite sequence of add/remove operations starting from
the empty ledger, the resulting `expenses` sequence is exactly the added
expenses not subsequently removed, in insertion order; and — under the
freshness that `generateUID` is for (the ids carried by the add operations
are pairwise distinct) — the ids of the resulting entries are pairwise
distinct. -/
theorem replay_entries_survivors_nodup (ops : List Op)
    (h : ((addsOf ops).map Expense.id).Nodup) :
    (replay ops emptyState).expenses = survivors ops ∧
    ((replay ops emptyState).expenses.map Expense.id).Nodup := by
  have heq : (replay ops emptyState).expenses = survivors ops := by
    rw [replay_expenses_general]
    simp [emptyState]
  refine ⟨heq, ?_⟩
  rw [heq]
  exact List.Nodup.sublist ((survivors_sublist_addsOf ops).map Expense.id) h

/-- Witness for **C1** at a concrete operation sequence. -/
theorem replay_entries_survivors_nodup_witness :
    ((addsOf c1ops).map Expense.id).Nodup ∧
    ((replay c1ops emptyState).expenses = survivors c1ops ∧
     ((replay c1ops emptyState).expenses.map Expense.id).Nodup) :=
  ⟨by decide, replay_entries_survivors_nodup c1ops (by decide)⟩

/-- **C2** counterexample: the claim says `addExpense` with `amount <= 0` or
an unrecognized category fails with `InvalidInput` and leaves `entries`
unchanged; in the code `state.addExpense` performs no validation at all, so
an expense with amount `-5` and category `"Bogus"` is appended and the
entries do change (and no error signal exists — the function is total). -/
theorem addExpense_validation_cex :
    (c2bad.amount ≤ 0 ∨ c2bad.category ∉ recognizedCategories) ∧
    (addExpense emptyState c2bad).expenses ≠ emptyState.expenses := by
  refine ⟨Or.inl (by norm_num [c2bad]), by decide⟩

/-- **C2** amended: `state.addExpense` performs no validation and has no
failure path: for every state and every expense — also one with
`amount ≤ 0` or a category outside the recognized set — it appends the
expense to `entries` (validation exists only in the UI layer's
`validateForm` pre-check). -/
theorem addExpense_appends_unconditionally (s : AppState) (e : Expense)
    (_h : e.amount ≤ 0 ∨ e.category ∉ recognizedCategories) :
    (addExpense s e).expenses = s.expenses ++ [e] := by
  simp [addExpense, saveToStorage_expenses]

/-- Witness for the amended **C2** at a concrete invalid expense. -/
theorem addExpense_appends_unconditionally_witness :
    (c2bad.amount ≤ 0 ∨ c2bad.category ∉ recognizedCategories) ∧
    (addExpense emptyState c2bad).expenses = emptyState.expenses ++ [c2bad] :=
  ⟨Or.inl (by norm_num [c2bad]),
   addExpense_appends_unconditionally emptyState c2bad
     (Or.inl (by norm_num [c2bad]))⟩

/-- **C3**: `getTotal` under filter "All" is the sum of all amounts; under a
category filter it is the sum of amounts over exactly the entries of that
category; and on an empty entries list it is `0` under any filter. -/
theorem getTotal_filter_semantics (es : List Expense) (f : String)
    (stor : Storage) :
    getTotal { expenses := es, currentFilter := "All", storage := stor }
      = (es.map Expense.amount).sum ∧
    (f ≠ "All" →
      getTotal { expenses := es, currentFilter := f, storage := stor }
        = ((es.filter (fun e => e.category == f)).map Expense.amount).sum) ∧
    getTotal { expenses := [], currentFilter := f, storage := stor } = 0 := by
  refine ⟨?_, ?_, ?_⟩
  · simp [getTotal, getFilteredExpenses, foldl_amount]
  · intro hf
    simp [getTotal, getFilteredExpenses, hf, foldl_amount]
  · by_cases hf : f = "All" <;> simp [getTotal, getFilteredExpenses, hf]

/-- Witness for **C3**: the spec scenario — add 50 Food and 30 Travel;
filter "Food" totals 50, filter "All" totals 80. -/
theorem getTotal_filter_semantics_witness :
    ("Food" ≠ "All") ∧
    getTotal { expenses := [c3food, c3travel], currentFilter := "Food",
               storage := workingStorage } = 50 ∧
    getTotal { expenses := [c3food, c3travel], currentFilter := "All",
               storage := workingStorage } = 80 := by
  refine ⟨by decide, ?_, ?_⟩
  · rw [(getTotal_filter_semantics [c3food, c3travel] "Food"
        workingStorage).2.1 (by decide)]
    simp +decide [c3food, c3travel]
  · rw [(getTotal_filter_semantics [c3food, c3travel] "All" workingStorage).1]
    simp +decide [c3food, c3travel]
    norm_num

/-- **C4**: `getCategoryStats` is computed over all entries, unaffected by
the active filter (or the storage); for every category that appears among
the entries, its cell holds the count of entries of that category and the
sum of their amounts. -/
theorem getCategoryStats_counts_all_entries (es : List Expense)
    (f₁ f₂ : String) (st₁ st₂ : Storage) (c : String)
    (h : ∃ e ∈ es, e.category = c) :
    getCategoryStats { expenses := es, currentFilter := f₁, storage := st₁ } c
      = getCategoryStats { expenses := es, currentFilter := f₂, storage := st₂ } c ∧
    getCategoryStats { expenses := es, currentFilter := f₁, storage := st₁ } c
      = some { count := countIn es c, total := sumIn es c } := by
  refine ⟨rfl, ?_⟩
  show (es.foldl statsStep (fun _ => none)) c = _
  rw [foldl_statsStep]
  have hne : countIn es c ≠ 0 := by
    obtain ⟨e, he, hce⟩ := h
    have hmem : e ∈ es.filter (fun x => x.category == c) :=
      List.mem_filter.mpr ⟨he, by simp [hce]⟩
    have hpos : 0 < (es.filter (fun x => x.category == c)).length :=
      List.length_pos.mpr (List.ne_nil_of_mem hmem)
    exact Nat.pos_iff_ne_zero.mp hpos
  simp [mergeStat, hne]

/-- Witness for **C4**: the spec scenario — two Food entries (10, 20) and a
Travel entry (5), under the active filter "Travel": Food still reports
count 2, total 30. -/
theorem getCategoryStats_counts_all_entries_witness :
    (∃ e ∈ [c4a, c4b, c4c], e.category = "Food") ∧
    getCategoryStats { expenses := [c4a, c4b, c4c], currentFilter := "Travel",
                       storage := workingStorage } "Food"
      = some { count := 2, total := 30 } := by
  refine ⟨by decide, ?_⟩
  rw [(getCategoryStats_counts_all_entries [c4a, c4b, c4c] "Travel" "All"
        workingStorage workingStorage "Food" (by decide)).2]
  simp +decide [countIn, sumIn, c4a, c4b, c4c]
  norm_num

/-- **C5**: `removeExpense` is idempotent on the whole state (entries and
storage alike), and removing an id matching no entry leaves the entries
unchanged; the operation is total, so an absent id is not an error. -/
theorem removeExpense_idempotent_total (s : AppState) (id : String) :
    removeExpense (removeExpense s id) id = removeExpense s id ∧
    ((∀ e ∈ s.expenses, e.id ≠ id) →
      (removeExpense s id).expenses = s.expenses) := by
  have hfilter : ∀ l : List Expense,
      (l.filter (fun e => e.id != id)).filter (fun e => e.id != id)
        = l.filter (fun e => e.id != id) := by
    intro l
    rw [List.filter_filter]
    apply List.filter_congr
    intro e _
    cases h : e.id != id <;> simp [h]
  constructor
  · cases hb : s.storage.broken with
    | false => simp [removeExpense, saveToStorage, Storage.setItem, hb, hfilter]
    | true => simp [removeExpense, saveToStorage, Storage.setItem, hb, hfilter]
  · intro h
    have hexp : (removeExpense s id).expenses
        = s.expenses.filter (fun e => e.id != id) := by
      simp [removeExpense, saveToStorage_expenses]
    rw [hexp]
    apply List.filter_eq_self.mpr
    intro e he
    simpa using h e he

/-- Witness for **C5**: removing a never-existing id from a concrete ledger
leaves its entries unchanged. -/
theorem removeExpense_idempotent_total_witness :
    (∀ e ∈ c5state.expenses, e.id ≠ "zz") ∧
    (removeExpense c5state "zz").expenses = c5state.expenses :=
  ⟨by decide, (removeExpense_idempotent_total c5state "zz").2 (by decide)⟩

/-- **C6**: persistence round-trip — when the medium accepts the write,
loading right after saving returns the same entries sequence, order and all
fields preserved. -/
theorem load_after_save_roundtrip (es : List Expense) (f : String)
    (stor : Storage) (h : stor.broken = false) :
    loadFromStorage
      (saveToStorage { expenses := es, currentFilter := f, storage := stor })
      = es := by
  have hsave : saveToStorage { expenses := es, currentFilter := f, storage := stor }
      = { expenses := es, currentFilter := f,
          storage := { slot := some (.json (encodeExpenses es)), broken := false } } := by
    simp [saveToStorage, Storage.setItem, h]
  rw [hsave]
  simp [loadFromStorage, jsonParse, decodeExpenseList_encodeExpenses]

/-- Witness for **C6** at a concrete entry. -/
theorem load_after_save_roundtrip_witness :
    workingStorage.broken = false ∧
    loadFromStorage
      (saveToStorage { expenses := [c6entry], currentFilter := "All",
                       storage := workingStorage })
      = [c6entry] :=
  ⟨rfl, load_after_save_roundtrip [c6entry] "All" workingStorage rfl⟩

/-- **C7** counterexample: the claim says `setFilter` rejects a value that is
neither "All" nor a recognized category with `InvalidInput`, leaving
`activeFilter` unchanged; in the code `state.setFilter` stores any value:
`setFilter(..., "Bogus")` changes the filter to "Bogus". -/
theorem setFilter_no_validation_cex :
    ("Bogus" ≠ "All" ∧ "Bogus" ∉ recognizedCategories) ∧
    (setFilter emptyState "Bogus").currentFilter ≠ emptyState.currentFilter ∧
    (setFilter emptyState "Bogus").currentFilter = "Bogus" :=
  ⟨⟨by decide, by decide⟩, by decide, rfl⟩

/-- **C7** amended: `setFilter` accepts every value without validation,
replacing `currentFilter` with it and touching nothing else — in
particular it performs no persistence write (the storage is unchanged). -/
theorem setFilter_replaces_filter_only (s : AppState) (v : String) :
    (setFilter s v).currentFilter = v ∧
    (setFilter s v).expenses = s.expenses ∧
    (setFilter s v).storage = s.storage :=
  ⟨rfl, rfl, rfl⟩

/-- **C8**: loading from a never-written slot yields the empty sequence (and
is not an error — `loadFromStorage` is total); and `init` on a corrupt slot
sets `expenses` to the empty sequence, identically to the never-written
case. -/
theorem load_missing_and_corrupt_slot (s₁ s₂ : AppState)
    (h₁ : s₁.storage.slot = none)
    (h₂ : s₂.storage.slot = some .notJson) :
    loadFromStorage s₁ = [] ∧
    (state_init s₁).expenses = [] ∧
    (state_init s₂).expenses = [] ∧
    (state_init s₂).expenses = (state_init s₁).expenses := by
  have l1 : loadFromStorage s₁ = [] := by simp [loadFromStorage, h₁]
  have l2 : loadFromStorage s₂ = [] := by simp [loadFromStorage, h₂, jsonParse]
  exact ⟨l1, by simp [state_init, l1], by simp [state_init, l2],
    by simp [state_init, l1, l2]⟩

/-- Witness for **C8**: the startup state (never-written slot) and a state
whose slot holds corrupt text. -/
theorem load_missing_and_corrupt_slot_witness :
    (emptyState.storage.slot = none ∧ c8corrupt.storage.slot = some .notJson) ∧
    (loadFromStorage emptyState = [] ∧
     (state_init emptyState).expenses = [] ∧
     (state_init c8corrupt).expenses = [] ∧
     (state_init c8corrupt).expenses = (state_init emptyState).expenses) :=
  ⟨⟨rfl, rfl⟩, load_missing_and_corrupt_slot emptyState c8corrupt rfl rfl⟩

/-- **C9**: when the persistence write fails (the medium rejects writes),
the add still takes effect in memory — the entry is appended and present —
and the storage is simply left as it was; `addExpense` is total, so no
error propagates and nothing crashes. -/
theorem addExpense_survives_write_failure (s : AppState) (e : Expense)
    (h : s.storage.broken = true) :
    (addExpense s e).expenses = s.expenses ++ [e] ∧
    e ∈ (addExpense s e).expenses ∧
    (addExpense s e).storage = s.storage := by
  have hb : ({ s with expenses := s.expenses ++ [e] } : AppState).storage.broken
      = true := h
  have hsave : addExpense s e = { s with expenses := s.expenses ++ [e] } :=
    saveToStorage_broken _ hb
  rw [hsave]
  exact ⟨rfl, by simp, rfl⟩

/-- Witness for **C9** at a concrete broken medium. -/
theorem addExpense_survives_write_failure_witness :
    c9broken.storage.broken = true ∧
    ((addExpense c9broken c9e).expenses = c9broken.expenses ++ [c9e] ∧
     c9e ∈ (addExpense c9broken c9e).expenses ∧
     (addExpense c9broken c9e).storage = c9broken.storage) :=
  ⟨rfl, addExpense_survives_write_failure c9broken c9e rfl⟩

/-- **C10** (implicit): `init` applies no validation to successfully parsed
stored data — whatever expense list the stored JSON value denotes is
installed verbatim as `expenses`, amount signs, category names and
duplicate ids included. -/
theorem init_loads_stored_array_verbatim (s : AppState) (j : Json)
    (es : List Expense)
    (h : s.storage.slot = some (.json j))
    (hdec : decodeExpenseList j = some es) :
    (state_init s).expenses = es := by
  simp [state_init, loadFromStorage, h, jsonParse, hdec]

/-- Witness for **C10**: a stored array carrying a non-positive amount, an
unrecognized category and a duplicated id is loaded exactly as stored. -/
theorem init_loads_stored_array_verbatim_witness :
    c10state.storage.slot = some (.json (encodeExpenses c10bad)) ∧
    decodeExpenseList (encodeExpenses c10bad) = some c10bad ∧
    (∃ e ∈ c10bad, e.amount ≤ 0) ∧
    (∃ e ∈ c10bad, e.category ∉ recognizedCategories) ∧
    ¬ (c10bad.map Expense.id).Nodup ∧
    (state_init c10state).expenses = c10bad := by
  refine ⟨rfl, decodeExpenseList_encodeExpenses c10bad, ?_, by decide, by decide,
    init_loads_stored_array_verbatim c10state (encodeExpenses c10bad) c10bad rfl
      (decodeExpenseList_encodeExpenses c10bad)⟩
  refine ⟨{ id := "d", amount := -5, category := "Bogus", timestamp := "t" },
    ?_, by norm_num⟩
  simp [c10bad]

end ExpenseTracker
